import Mathlib

/-!
Shallow embedding of `scorecard-generator.js` (MRP Climbing Scorecard
Generator): a Google-Apps-Script batch transform that parses a registration
table and per-category climb assignments, lays out printable scorecards, and
builds per-session check-in rosters.

Spreadsheet cells are modelled as `String` (the parsing code only ever tests
truthiness/trimmed-emptiness and applies string operations to them).  The
configuration scalars "number of climbs" / "number of attempts" are modelled
as `Nat` (the spec requires positive integers in those cells; for an integer
cell value `n`, JS `parseInt(n)` and numeric comparison agree with the `Nat`
model, and `!n` agrees with `n = 0`).  The host SpreadsheetApp surface is
modelled as a trace of coarse write events (sheet deletion / insertion /
modification); alerts are the returned message.
-/

namespace Scorecard

/-- JS whitespace (ASCII subset relevant to `trim` and the inputs at hand),
by code point: space, tab, LF, CR, VT, FF. -/
def jsIsWhitespace (c : Char) : Bool :=
  c.toNat = 32 || c.toNat = 9 || c.toNat = 10 || c.toNat = 13 ||
    c.toNat = 11 || c.toNat = 12

/-- Decimal digit check (regex `\d`, i.e. code points 48-57). -/
def jsIsDigit (c : Char) : Bool :=
  48 ≤ c.toNat && c.toNat ≤ 57

/-- JS `String.prototype.trim`: strip leading and trailing whitespace. -/
def jsTrim (s : String) : String :=
  ⟨((s.data.dropWhile jsIsWhitespace).reverse.dropWhile jsIsWhitespace).reverse⟩

def splitOnCharAux (sep : Char) : List Char → List Char → List (List Char)
  | [], acc => [acc.reverse]
  | c :: cs, acc =>
    if c = sep then acc.reverse :: splitOnCharAux sep cs []
    else splitOnCharAux sep cs (c :: acc)

/-- JS `s.split(sep)` for a single-character separator. -/
def jsSplitChar (sep : Char) (s : String) : List String :=
  (splitOnCharAux sep s.data []).map String.mk

/-- JS `s.includes(c)` for a single-character needle. -/
def containsChar (s : String) (c : Char) : Bool :=
  s.data.contains c

def startsWithChars : List Char → List Char → Bool
  | _, [] => true
  | [], _ :: _ => false
  | a :: as, b :: bs => a == b && startsWithChars as bs

def containsSubAux (pat : List Char) : List Char → Bool
  | [] => pat.isEmpty
  | c :: rest => startsWithChars (c :: rest) pat || containsSubAux pat rest

/-- JS `s.includes(pat)` (substring containment). -/
def containsSubstr (s pat : String) : Bool :=
  containsSubAux pat.data s.data

/-- JS `s.endsWith(suffix)`. -/
def strEndsWith (s suffix : String) : Bool :=
  decide (suffix.data.length ≤ s.data.length) &&
    (s.data.drop (s.data.length - suffix.data.length) == suffix.data)

/-- JS `s.toLowerCase()` (ASCII case folding suffices for the inputs used). -/
def jsToLower (s : String) : String :=
  ⟨s.data.map Char.toLower⟩

/-- Longest leading run of decimal digits. -/
def takeDigits : List Char → List Char
  | [] => []
  | c :: cs => if jsIsDigit c then c :: takeDigits cs else []

def digitsToNat (l : List Char) : Nat :=
  l.foldl (fun acc c => acc * 10 + (c.toNat - 48)) 0

def digitsVal (l : List Char) : Option Int :=
  match takeDigits l with
  | [] => none
  | ds => some (digitsToNat ds)

def parseIntCore : List Char → Option Int
  | [] => none
  | c :: cs =>
    if c = '-' then (digitsVal cs).map (fun n => -n)
    else if c = '+' then digitsVal cs
    else digitsVal (c :: cs)

/-- JS `parseInt(s)` restricted to base 10; `none` models `NaN`. -/
def jsParseInt (s : String) : Option Int :=
  parseIntCore (s.data.dropWhile jsIsWhitespace)

/-- JS `parseInt(s) || 0`: `NaN` (and `0` itself) collapse to `0`. -/
def jsParseIntOr0 (s : String) : Int :=
  (jsParseInt s).getD 0

/-- First maximal run of decimal digits, as matched by `/\d+/`. -/
def firstDigitRun : List Char → Option (List Char)
  | [] => none
  | c :: cs => if jsIsDigit c then some (c :: takeDigits cs) else firstDigitRun cs

/-- JS `s.match(/\d+/)`, reduced to the matched text. -/
def jsMatchDigits (s : String) : Option String :=
  (firstDigitRun s.data).map String.mk

/-- JS `s.charAt(0)`: the first character as a string, `""` when empty. -/
def charAt0 (s : String) : String :=
  match s.data with
  | [] => ""
  | c :: _ => ⟨[c]⟩

/-- JS `row[idx] || ''` where a missing column gives index `-1` (`none`). -/
def cellAt (row : List String) (idx : Option Nat) : String :=
  match idx with
  | none => ""
  | some i => row.getD i ""

/-- `localeCompare`, modelled as code-point order. -/
def strCompare (a b : String) : Int :=
  if a = b then 0 else if a < b then -1 else 1

/-- Stable insertion step for `sortLE`. -/
def insertLE {α : Type} (le : α → α → Bool) (a : α) : List α → List α
  | [] => [a]
  | b :: bs => if le a b then a :: b :: bs else b :: insertLE le a bs

/-- Stable sort by a boolean `≤`-style comparison; agrees with JS
`Array.prototype.sort` whenever the comparator is consistent. -/
def sortLE {α : Type} (le : α → α → Bool) : List α → List α
  | [] => []
  | a :: as => insertLE le a (sortLE le as)

/-! ## Category Comparator (`compareCategoriesRedpoint`, lines 240-258) -/

/-- The object literal `{ 'F': 0, 'M': 1, 'U': 2 }` indexed at `g`
(`undefined` is `none`). -/
def genderOrderLookup (g : String) : Option Int :=
  if g = "F" then some 0 else if g = "M" then some 1
  else if g = "U" then some 2 else none

/-- JS `genderOrder[g] || 3`: both `undefined` and the value `0` are falsy,
so they yield `3`. -/
def genderRank (g : String) : Int :=
  match genderOrderLookup g with
  | some v => if v = 0 then 3 else v
  | none => 3

/-- `getGenderAge`: first character plus `parseInt(cat.substring(1)) || 0`. -/
def getGenderAge (cat : String) : String × Int :=
  (charAt0 cat, jsParseIntOr0 ⟨cat.data.drop 1⟩)

def compareCategoriesRedpoint (catA catB : String) : Int :=
  let a := getGenderAge catA
  let b := getGenderAge catB
  let genderCompare := genderRank a.1 - genderRank b.1
  if genderCompare ≠ 0 then genderCompare else a.2 - b.2

/-! ## Climb Assignment Parser (`parseClimbAssignments`, lines 97-119) -/

/-- JS object assignment `assignments[k] = v`: overwrite in place when the key
exists, otherwise append (non-numeric string keys keep insertion order). -/
def assignUpdate (m : List (String × List String)) (k : String) (v : List String) :
    List (String × List String) :=
  if m.any (fun e => e.1 == k) then
    m.map (fun e => if e.1 == k then (e.1, v) else e)
  else m ++ [(k, v)]

/-- `parseClimbAssignments`: skip the header row; for each row with a
non-empty category cell and non-empty climb-list cell, split the climb list
on commas, trim each token, and store under the trimmed category (last row
wins). -/
def parseClimbAssignments (data : List (List String)) : List (String × List String) :=
  (data.drop 1).foldl
    (fun acc row =>
      let category := row.getD 0 ""
      let climbsStr := row.getD 1 ""
      if category = "" ∨ climbsStr = "" then acc
      else assignUpdate acc (jsTrim category) ((jsSplitChar ',' climbsStr).map jsTrim))
    []

/-- JS `climbAssignments[category]` (`undefined` is `none`). -/
def lookupAssignment (m : List (String × List String)) (k : String) :
    Option (List String) :=
  (m.find? (fun e => e.1 == k)).map (fun e => e.2)

/-! ## Registration Parser (`parseClimberData`, lines 121-238) -/

structure Climber where
  firstname : String
  lastname : String
  name : String
  bib : String
  category : String
  session : String
deriving Repr, DecidableEq

structure SkipReason where
  name : String
  category : Option String
  reason : String
deriving Repr, DecidableEq

/-- Strip the matched ` (boulder|lead|rope) ticket$` suffix from a ticket
header (the suffixes are mutually exclusive, so suffix tests replicate the
anchored regex replace). -/
def stripTicketSuffix (h : String) : String :=
  if strEndsWith h " boulder ticket" then ⟨h.data.take (h.data.length - 15)⟩
  else if strEndsWith h " lead ticket" then ⟨h.data.take (h.data.length - 12)⟩
  else if strEndsWith h " rope ticket" then ⟨h.data.take (h.data.length - 12)⟩
  else h

/-- Header-cell test of lines 150-154: truthy, ends with a ticket suffix, and
does not contain "status"; yields the category label for the column. -/
def ticketHeaderCategory (h : String) : Option String :=
  if h ≠ "" ∧
      (strEndsWith h " boulder ticket" = true ∨ strEndsWith h " lead ticket" = true ∨
        strEndsWith h " rope ticket" = true) ∧
      containsSubstr h "status" = false then
    some (stripTicketSuffix h)
  else none

/-- Outcome of the ticket-column scan of lines 178-208 for one row:
no ticket cell matched, or a match whose session token is blank (the
"No session information found" branch), or a successful registration. -/
inductive TicketScan where
  | notFound
  | invalid (category : String)
  | found (category session : String)
deriving Repr, DecidableEq

/-- Scan the ticket columns in header order; the first column whose cell is
non-empty and non-whitespace decides the outcome (`break`). -/
def scanTickets (row : List String) : List (Nat × String) → TicketScan
  | [] => .notFound
  | t :: rest =>
    let ticketValue := cellAt row (some t.1)
    if ticketValue ≠ "" ∧ jsTrim ticketValue ≠ "" then
      let session := (jsMatchDigits ticketValue).getD ticketValue
      if session = "" ∨ jsTrim session = "" then .invalid t.2
      else .found t.2 session
    else scanTickets row rest

inductive RowResult where
  | blank
  | valid (c : Climber)
  | skipped (s : SkipReason)
deriving Repr, DecidableEq

/-- Lines 160-217 for a single (already normalized) data row. -/
def processClimberRow (firstnameIdx lastnameIdx bibIdx : Option Nat)
    (ticketColumns : List (Nat × String)) (row : List String) : RowResult :=
  let firstname := cellAt row firstnameIdx
  let lastname := cellAt row lastnameIdx
  let bib := cellAt row bibIdx
  if firstname = "" ∧ lastname = "" then .blank
  else
    let climberName := jsTrim (firstname ++ " " ++ lastname)
    match scanTickets row ticketColumns with
    | .found catg session =>
        .valid ⟨firstname, lastname, climberName, bib, catg, session⟩
    | .invalid catg =>
        .skipped ⟨climberName, some catg, "No session information found"⟩
    | .notFound =>
        if climberName ≠ "" then
          .skipped ⟨climberName, none, "No registration/ticket information found"⟩
        else .blank

/-- Lines 131-139 / 161-166: a row whose first cell contains `;` is a
delimiter-packed single cell and is split; otherwise the row is used as-is. -/
def normalizeRow (row : List String) : List String :=
  match row with
  | [] => row
  | c :: _ => if containsChar c ';' then jsSplitChar ';' c else row

/-- Accumulate valid climbers and skip reasons over the data rows, in input
order. -/
def collectRows (fi li bi : Option Nat) (tickets : List (Nat × String)) :
    List (List String) → List Climber × List SkipReason
  | [] => ([], [])
  | r :: rs =>
    let rest := collectRows fi li bi tickets rs
    match processClimberRow fi li bi tickets (normalizeRow r) with
    | .blank => rest
    | .valid c => (c :: rest.1, rest.2)
    | .skipped s => (rest.1, s :: rest.2)

/-- The sort comparator of lines 223-235: session as `parseInt || 0`, then
category, then last name. -/
def jsClimberCompare (a b : Climber) : Int :=
  let sessionA := jsParseIntOr0 a.session
  let sessionB := jsParseIntOr0 b.session
  if sessionA ≠ sessionB then sessionA - sessionB
  else
    let catCompare := compareCategoriesRedpoint a.category b.category
    if catCompare ≠ 0 then catCompare
    else strCompare a.lastname b.lastname

def climberLE (a b : Climber) : Bool :=
  decide (jsClimberCompare a b ≤ 0)

/-- `parseClimberData`: resolve the header, locate the name/bib columns and
the ticket columns, process each data row, and sort the valid climbers. -/
def parseClimberData (data : List (List String)) : List Climber × List SkipReason :=
  match data with
  | [] => ([], [])
  | header :: rest =>
    if rest.isEmpty then ([], [])
    else
      let headerRow := normalizeRow header
      let firstnameIdx := headerRow.findIdx? (fun h => h == "firstname")
      let lastnameIdx := headerRow.findIdx? (fun h => h == "lastname")
      let bibIdx := headerRow.findIdx? (fun h => h == "bib")
      let ticketColumns := headerRow.enum.filterMap
        (fun p => (ticketHeaderCategory p.2).map (fun c => (p.1, c)))
      let res := collectRows firstnameIdx lastnameIdx bibIdx ticketColumns rest
      (sortLE climberLE res.1, res.2)

/-! ## Scorecard Layout Engine (`createRedpointScorecards`, lines 260-423) -/

def MAX_ATTEMPTS : Nat := 10

def CARD_WIDTH_COLS : Nat := 1 + MAX_ATTEMPTS

/-- Configuration scalars read from the Summary sheet (B1-B5).  The numeric
cells B2/B3 are modelled as `Nat`: for an integer cell value the JS
truthiness test, `parseInt`, and the `<=` loop bound agree with this model. -/
structure Config where
  eventName : String
  numClimbs : Nat
  numAttempts : Nat
  eventType : String
  scoringNotes : String
deriving Repr, DecidableEq

/-- Line 269: label prefix per event kind. -/
def climbPrefixFor (eventType : String) : String :=
  if jsTrim (jsToLower eventType) = "rope" then "Climb" else "Boulder"

/-- The attempt-number markers written into one climb grid row
(lines 358-366): `1..numAttempts`, written at columns `1+1..1+numAttempts`. -/
def attemptMarkersFor (numAttempts : Nat) : List Nat :=
  List.range' 1 numAttempts

/-- One laid-out card: its start row, the row-unit count of lines 296-384,
the rendered climb labels and attempt markers, and the parity-dependent
padding decisions of lines 389-407. -/
structure Card where
  startRow : Nat
  rowsUsed : Nat
  climbLabels : List String
  attemptMarkers : List Nat
  isOddCard : Bool
  padding : Nat
  gapAfter : Bool
deriving Repr, DecidableEq

structure LayoutState where
  currentRow : Nat
  successfulCards : Nat
  skipped : List SkipReason
  cards : List Card
deriving Repr, DecidableEq

def initLayoutState : LayoutState :=
  ⟨1, 0, [], []⟩

/-- The body of the `for` loop of lines 289-420 for one climber.
`numClimbers` is `climbers.length` of the enclosing call.  Sheet-write calls
are abstracted away; the cursor (`currentRow`), the card-content values, the
skip list, and the success counter follow the source exactly. -/
def layoutStep (cfg : Config) (asg : List (String × List String)) (numClimbers : Nat)
    (st : LayoutState) (climber : Climber) : LayoutState :=
  let categoryClimbs := (lookupAssignment asg climber.category).getD []
  if categoryClimbs.length = 0 then
    { st with skipped := st.skipped ++
        [⟨climber.name, some climber.category, "No climbs assigned to category"⟩] }
  else
    let isOddCard := st.successfulCards % 2 == 0
    let actualNumClimbs := min categoryClimbs.length cfg.numClimbs
    let climbLabels := (categoryClimbs.take actualNumClimbs).map
      (fun c => climbPrefixFor cfg.eventType ++ ": " ++ c)
    let notesRows := if cfg.scoringNotes ≠ "" then 2 else 0
    let rowsUsedCount := 1 + 2 + 2 + 1 + 2 * actualNumClimbs + notesRows
    let bodyRows := 1 + 1 + 1 + 1 + actualNumClimbs + notesRows
    let target : Int := if isOddCard then 33 else 34
    let paddingNeeded : Int := target - rowsUsedCount
    let padding : Nat := if paddingNeeded > 0 then paddingNeeded.toNat else 0
    let gapAfter := !isOddCard &&
      decide ((st.successfulCards : Int) <
        (numClimbers : Int) - st.skipped.length - 1)
    let tailRows : Nat := if isOddCard then 1 else if gapAfter then 2 else 0
    let card : Card := ⟨st.currentRow, rowsUsedCount, climbLabels,
      attemptMarkersFor cfg.numAttempts, isOddCard, padding, gapAfter⟩
    { currentRow := st.currentRow + bodyRows + padding + tailRows
      successfulCards := st.successfulCards + 1
      skipped := st.skipped
      cards := st.cards ++ [card] }

def runLayout (cfg : Config) (asg : List (String × List String)) (numClimbers : Nat)
    (cs : List Climber) : LayoutState :=
  cs.foldl (layoutStep cfg asg numClimbers) initLayoutState

/-- `createRedpointScorecards`: lay out every climber in order. -/
def createRedpointScorecards (cfg : Config) (asg : List (String × List String))
    (cs : List Climber) : LayoutState :=
  runLayout cfg asg cs.length cs

/-! ## Check-in Roster Builder (`createCheckInLists`, lines 425-494) -/

/-- Push a climber into `sessionGroups[climber.session]`, creating the group
if absent (lines 429-435). -/
def addToGroups (gs : List (String × List Climber)) (c : Climber) :
    List (String × List Climber) :=
  if gs.any (fun g => g.1 == c.session) then
    gs.map (fun g => if g.1 == c.session then (g.1, g.2 ++ [c]) else g)
  else gs ++ [(c.session, [c])]

def groupBySession (cs : List Climber) : List (String × List Climber) :=
  cs.foldl addToGroups []

/-- The session-key comparator of line 438 as a `≤` test:
`parseInt(a) - parseInt(b)`, with a `NaN` comparator value treated as 0 by
the engine's sort (neither "less" nor "greater"). -/
def sessionLE (a b : String) : Bool :=
  match jsParseInt a, jsParseInt b with
  | some x, some y => decide (x ≤ y)
  | _, _ => true

/-- The `≤` test for roster rows (lines 453-457): category, then last name. -/
def rosterRowLE (a b : Climber) : Bool :=
  decide ((let catCompare := compareCategoriesRedpoint a.category b.category
    if catCompare ≠ 0 then catCompare else strCompare a.lastname b.lastname) ≤ 0)

/-- One per-session check-in sheet: its key and its data rows in order. -/
structure Roster where
  session : String
  rows : List Climber
deriving Repr, DecidableEq

/-- `createCheckInLists`: group by session, sort the session keys
numerically, and emit one roster per session with rows sorted by
(category, last name). -/
def createCheckInLists (cs : List Climber) : List Roster :=
  let groups := groupBySession cs
  let sorted := sortLE (fun a b => sessionLE a.1 b.1) groups
  sorted.map (fun g => ⟨g.1, sortLE rosterRowLE g.2⟩)

/-! ## Orchestrator (`generateScorecards`, lines 14-95) -/

/-- Coarse model of a SpreadsheetApp output mutation. -/
inductive WriteEvent where
  | deleteSheet (name : String)
  | insertSheet (name : String)
  | modifySheet (name : String)
deriving Repr, DecidableEq

/-- Lines 52-59: delete a pre-existing "Queue Cards" sheet, insert a fresh
one, and hide its gridlines. -/
def queueSetupEvents (existingSheets : List String) : List WriteEvent :=
  (if "Queue Cards" ∈ existingSheets then [.deleteSheet "Queue Cards"] else []) ++
    [.insertSheet "Queue Cards", .modifySheet "Queue Cards"]

/-- Lines 444-492: per-session roster sheet replacement and population. -/
def sessionSheetEvents (existingSheets : List String) (session : String) :
    List WriteEvent :=
  let sheetName := "Session " ++ session ++ " Check-in List"
  (if sheetName ∈ existingSheets then [.deleteSheet sheetName] else []) ++
    [.insertSheet sheetName, .modifySheet sheetName]

def msgSummaryMissing : String :=
  "Error: Could not find \"Summary\" sheet. Please create it first."

def msgConfigMissing : String :=
  "Error: Please fill in Event Name (B1), Number of Routes (B2), Number of Attempts (B3), and Event Type (B4) in the Summary sheet."

def msgEventTypeInvalid : String :=
  "Error: Event Type (B4) must be either \"boulder\" or \"rope\"."

def msgClimbsMissing : String :=
  "Error: Could not find \"Climbs\" sheet. Please create it first."

def msgRegistrationMissing : String :=
  "Error: Could not find \"Registration\" sheet. Please upload your CSV first."

def msgNoClimbers : String :=
  "No registered climbers found."

/-- The spreadsheet environment `generateScorecards` runs against: the three
input tables (each possibly missing) and the names of the sheets that
currently exist (used only to decide delete-before-insert events). -/
structure Env where
  summary : Option Config
  climbs : Option (List (List String))
  registration : Option (List (List String))
  existingSheets : List String
deriving Repr, DecidableEq

/-- `generateScorecards`: the full run.  Returns the ordered trace of output
writes and the single alert message shown to the operator. -/
def generateScorecards (env : Env) : List WriteEvent × String :=
  match env.summary with
  | none => ([], msgSummaryMissing)
  | some cfg =>
    if cfg.eventName = "" ∨ cfg.numClimbs = 0 ∨ cfg.numAttempts = 0 ∨
        cfg.eventType = "" then
      ([], msgConfigMissing)
    else
      let eventTypeLower := jsTrim (jsToLower cfg.eventType)
      if eventTypeLower ≠ "boulder" ∧ eventTypeLower ≠ "rope" then
        ([], msgEventTypeInvalid)
      else
        match env.climbs with
        | none => ([], msgClimbsMissing)
        | some climbsData =>
          let climbAssignments := parseClimbAssignments climbsData
          let queueEvents := queueSetupEvents env.existingSheets
          match env.registration with
          | none => (queueEvents, msgRegistrationMissing)
          | some regData =>
            let climbers := parseClimberData regData
            if climbers.1.length = 0 then
              (queueEvents, msgNoClimbers)
            else
              let layout := createRedpointScorecards cfg climbAssignments climbers.1
              let rosters := createCheckInLists climbers.1
              let rosterEvents := rosters.flatMap
                (fun r => sessionSheetEvents env.existingSheets r.session)
              (queueEvents ++ [.modifySheet "Queue Cards"] ++ rosterEvents,
                "Success! Generated " ++
                  toString (climbers.1.length - layout.skipped.length) ++
                  " scorecards in the \"Queue Cards\" sheet and check-in lists for each session.")

/-- The fatal conditions checked before any output sheet is touched:
missing Summary sheet, a missing configuration scalar, or an invalid event
kind, or a missing Climbs sheet. -/
def configPresent (cfg : Config) : Prop :=
  cfg.eventName ≠ "" ∧ cfg.numClimbs ≠ 0 ∧ cfg.numAttempts ≠ 0 ∧ cfg.eventType ≠ ""

def eventTypeOK (cfg : Config) : Prop :=
  jsTrim (jsToLower cfg.eventType) = "boulder" ∨ jsTrim (jsToLower cfg.eventType) = "rope"

def fatalEarly (env : Env) : Prop :=
  env.summary = none
  ∨ (∃ cfg, env.summary = some cfg ∧ ¬ configPresent cfg)
  ∨ (∃ cfg, env.summary = some cfg ∧ configPresent cfg ∧ ¬ eventTypeOK cfg)
  ∨ (∃ cfg, env.summary = some cfg ∧ configPresent cfg ∧ eventTypeOK cfg ∧
      env.climbs = none)

/-- The fatal conditions that are only checked after the Queue Cards sheet
has been replaced: missing Registration sheet, or zero valid climbers. -/
def fatalLate (env : Env) : Prop :=
  ∃ cfg, env.summary = some cfg ∧ configPresent cfg ∧ eventTypeOK cfg ∧
    (∃ cd, env.climbs = some cd) ∧
    (env.registration = none ∨
      ∃ rd, env.registration = some rd ∧ (parseClimberData rd).1 = [])

/-! ## Theorems -/

/-- C1: the claim states that the Category Comparator orders genders by the
fixed rank F < M < U < unrecognized, with `compare("F40","M10") < 0`.  The
code contradicts its own comment ("Gender order: F, then M, then U"):
`genderOrder['F']` is `0`, which is falsy, so `genderOrder[g] || 3` maps `F`
to rank 3 and the comparator returns `3 - 1 = 2 > 0` on `("F40","M10")`,
sorting M before F. -/
theorem c1_compare_F40_M10 :
    compareCategoriesRedpoint "F40" "M10" = 2 ∧
      ¬ compareCategoriesRedpoint "F40" "M10" < 0 := by
  decide

/-- C2: the claim states that attempt markers are capped at
min(configured attempt count, 10).  The loop of lines 358-366 runs
`attemptNum = 1 .. numAttempts` with no cap, so with a configured attempt
count of 11 a card's grid row receives 11 markers, the last written at
column `1 + 11 = 12`, beyond the reserved `CARD_WIDTH_COLS = 11` card
width that the code itself declares ("Always 11 columns"). -/
theorem c2_markers_uncapped :
    (createRedpointScorecards ⟨"E", 1, 11, "boulder", ""⟩ [("F10", ["101"])]
        [⟨"A", "A", "A A", "1", "F10", "1"⟩]).cards.map Card.attemptMarkers =
      [[1, 2, 3, 4, 5, 6, 7, 8, 9, 10, 11]] ∧ CARD_WIDTH_COLS < 1 + 11 := by
  decide

/-- C3 counterexample: with a valid Summary configuration and a Climbs sheet
present but the Registration sheet missing (a fatal missing-input-table
condition), the run aborts with a single message only after deleting and
recreating the "Queue Cards" output sheet and hiding its gridlines —
output writes do occur before this abort, refuting the claim that every
fatal condition performs no output writes. -/
theorem c3_counterexample :
    generateScorecards
        ⟨some ⟨"Comp", 2, 4, "boulder", ""⟩,
          some [["Category", "Climbs"], ["F10", "101, 102"]], none,
          ["Summary", "Climbs", "Queue Cards"]⟩ =
      ([.deleteSheet "Queue Cards", .insertSheet "Queue Cards",
        .modifySheet "Queue Cards"], msgRegistrationMissing) := by
  decide

/-- C4 counterexample: the claim states `compare` always returns a value in
{-1, 0, +1}; on two same-gender categories it returns the raw age
difference, here `40 - 10 = 30`. -/
theorem c4_counterexample :
    compareCategoriesRedpoint "F40" "F10" = 30 ∧
      ¬(compareCategoriesRedpoint "F40" "F10" = -1 ∨
        compareCategoriesRedpoint "F40" "F10" = 0 ∨
        compareCategoriesRedpoint "F40" "F10" = 1) := by
  decide

/-- C4 amended: the comparator returns an arbitrary-magnitude integer whose
sign encodes the order — for every pair of category strings the results of
the two argument orders are exact negations (so negative/zero/positive is
consistent), but the value is not confined to {-1, 0, +1}. -/
theorem c4_amended_sign_only (a b : String) :
    compareCategoriesRedpoint a b = -compareCategoriesRedpoint b a := by
  simp only [compareCategoriesRedpoint]
  by_cases h : genderRank (getGenderAge a).1 - genderRank (getGenderAge b).1 = 0
  · have h' : genderRank (getGenderAge b).1 - genderRank (getGenderAge a).1 = 0 := by omega
    simp [h, h']
  · have h' : genderRank (getGenderAge b).1 - genderRank (getGenderAge a).1 ≠ 0 := by omega
    simp [h, h']

/-- C7: a climber whose category has no entry in the climb assignment table
is skipped with exactly one SkipReason, verbatim reason
"No climbs assigned to category"; the cursor, the successful-card counter,
and the emitted cards are unchanged, and the loop continues with the next
climber (the step returns normally). -/
theorem c7_no_assignment_skip (cfg : Config) (asg : List (String × List String))
    (n : Nat) (st : LayoutState) (climber : Climber)
    (h : lookupAssignment asg climber.category = none) :
    layoutStep cfg asg n st climber =
      { st with skipped := st.skipped ++
          [⟨climber.name, some climber.category, "No climbs assigned to category"⟩] } := by
  unfold layoutStep
  rw [h]
  simp

/-- C7 witness: the theorem applied to a concrete climber with an empty
assignment table. -/
theorem c7_no_assignment_skip_witness :
    layoutStep ⟨"E", 2, 4, "boulder", ""⟩ [] 1 initLayoutState
        ⟨"A", "A", "A A", "1", "F10", "1"⟩ =
      ⟨1, 0, [⟨"A A", some "F10", "No climbs assigned to category"⟩], []⟩ :=
  (c7_no_assignment_skip ⟨"E", 2, 4, "boulder", ""⟩ [] 1 initLayoutState
    ⟨"A", "A", "A A", "1", "F10", "1"⟩ (by decide)).trans (by decide)

/-- C6: for a climber whose category has at least one assigned climb, the
card laid out for them renders exactly min(assigned climbs, configured climb
count) climb rows, labelled with the first N assigned climb identifiers in
order, never exceeding either bound. -/
theorem c6_climb_rows (cfg : Config) (asg : List (String × List String))
    (n : Nat) (st : LayoutState) (climber : Climber) (climbs : List String)
    (h : lookupAssignment asg climber.category = some climbs) (hne : climbs ≠ []) :
    ∃ card : Card,
      (layoutStep cfg asg n st climber).cards = st.cards ++ [card] ∧
      card.climbLabels = (climbs.take cfg.numClimbs).map
        (fun c => climbPrefixFor cfg.eventType ++ ": " ++ c) ∧
      card.climbLabels.length = min climbs.length cfg.numClimbs ∧
      card.climbLabels.length ≤ climbs.length ∧
      card.climbLabels.length ≤ cfg.numClimbs := by
  unfold layoutStep
  rw [h]
  have hlen : climbs.length ≠ 0 := by simpa using hne
  have htake : climbs.take (min climbs.length cfg.numClimbs) = climbs.take cfg.numClimbs := by
    rcases Nat.le_total climbs.length cfg.numClimbs with hle | hle
    · rw [Nat.min_eq_left hle, List.take_length, List.take_of_length_le hle]
    · rw [Nat.min_eq_right hle]
  simp only [Option.getD_some, if_neg hlen]
  refine ⟨_, rfl, ?_, ?_, ?_, ?_⟩
  all_goals (simp [htake, List.length_take]; try omega)

/-- C6 witness: the spec's own example — assignment `F12 → [101, 102, 103]`,
configured climb count 2 — yields exactly 2 climb rows `101`, `102`. -/
theorem c6_climb_rows_witness :
    ∃ card : Card,
      (layoutStep ⟨"E", 2, 4, "boulder", ""⟩ [("F12", ["101", "102", "103"])] 1
          initLayoutState ⟨"A", "A", "A A", "1", "F12", "1"⟩).cards =
        initLayoutState.cards ++ [card] ∧
      card.climbLabels = (["101", "102", "103"].take 2).map
        (fun c => climbPrefixFor "boulder" ++ ": " ++ c) ∧
      card.climbLabels.length = min (["101", "102", "103"] : List String).length 2 ∧
      card.climbLabels.length ≤ (["101", "102", "103"] : List String).length ∧
      card.climbLabels.length ≤ 2 :=
  c6_climb_rows ⟨"E", 2, 4, "boulder", ""⟩ [("F12", ["101", "102", "103"])] 1
    initLayoutState ⟨"A", "A", "A A", "1", "F12", "1"⟩ ["101", "102", "103"]
    (by decide) (by decide)

/-- C5 counterexample: a run of three climbers where the first two lay out
successfully and the third is skipped (no climbs for its category).  The
second card — the second of a pair and the *last successfully laid-out
card* of the run — still gets the 2-row gap (`gapAfter = true`), because the
code's check `successfulCards < climbers.length - skippedClimbers.length - 1`
uses the skips recorded *so far* (none at that point), refuting the claim's
"if and only if ... not the last successfully laid-out card (including runs
where climbers after it are skipped)". -/
theorem c5_counterexample :
    (createRedpointScorecards ⟨"E", 2, 4, "boulder", ""⟩
        [("F10", ["101", "102", "103"])]
        [⟨"A", "A", "A A", "1", "F10", "1"⟩, ⟨"B", "B", "B B", "2", "F10", "1"⟩,
          ⟨"C", "C", "C C", "3", "M99", "1"⟩]).cards.map Card.gapAfter =
      [false, true] ∧
    (createRedpointScorecards ⟨"E", 2, 4, "boulder", ""⟩
        [("F10", ["101", "102", "103"])]
        [⟨"A", "A", "A A", "1", "F10", "1"⟩, ⟨"B", "B", "B B", "2", "F10", "1"⟩,
          ⟨"C", "C", "C C", "3", "M99", "1"⟩]).skipped =
      [⟨"C C", some "M99", "No climbs assigned to category"⟩] := by
  decide

/-- Each layout step settles its climber as exactly one success or one skip. -/
theorem layoutStep_count (cfg : Config) (asg : List (String × List String))
    (n : Nat) (st : LayoutState) (c : Climber) :
    (layoutStep cfg asg n st c).successfulCards +
        (layoutStep cfg asg n st c).skipped.length =
      st.successfulCards + st.skipped.length + 1 := by
  unfold layoutStep
  by_cases h : ((lookupAssignment asg c.category).getD []).length = 0
  · simp [h]
    omega
  · simp [h]
    omega

/-- Along the layout loop, successes plus skips equal the number of climbers
processed so far. -/
theorem layoutFold_count (cfg : Config) (asg : List (String × List String))
    (n : Nat) (cs : List Climber) (st : LayoutState) :
    (cs.foldl (layoutStep cfg asg n) st).successfulCards +
        (cs.foldl (layoutStep cfg asg n) st).skipped.length =
      st.successfulCards + st.skipped.length + cs.length := by
  induction cs generalizing st with
  | nil => simp
  | cons c cs ih =>
    simp only [List.foldl_cons, List.length_cons]
    rw [ih, layoutStep_count]
    omega

/-- C5 amended: after the second card of a pair (odd 0-indexed
`successfulCards`) the cursor is padded to 34 row-units, and the 2-row gap
is inserted if and only if the laid-out climber is not the last climber of
the *input* list: the code's check `successfulCards < climbers.length -
skippedClimbers.length - 1` counts only the skips recorded so far, which
together with the successes so far equals the input position, so trailing
climbers that will be skipped still cause a gap after the final successful
card. -/
theorem c5_amended_gap_iff_not_last_input (cfg : Config)
    (asg : List (String × List String)) (cs1 : List Climber) (c : Climber)
    (cs2 : List Climber)
    (hclimbs : (lookupAssignment asg c.category).getD [] ≠ [])
    (hparity :
      (runLayout cfg asg (cs1 ++ c :: cs2).length cs1).successfulCards % 2 = 1) :
    ∃ card : Card,
      (layoutStep cfg asg (cs1 ++ c :: cs2).length
            (runLayout cfg asg (cs1 ++ c :: cs2).length cs1) c).cards =
        (runLayout cfg asg (cs1 ++ c :: cs2).length cs1).cards ++ [card] ∧
      (card.gapAfter = true ↔ cs2 ≠ []) ∧
      (card.rowsUsed ≤ 34 → card.rowsUsed + card.padding = 34) := by
  set st := runLayout cfg asg (cs1 ++ c :: cs2).length cs1 with hst
  have hcount : st.successfulCards + st.skipped.length = cs1.length := by
    have h := layoutFold_count cfg asg (cs1 ++ c :: cs2).length cs1 initLayoutState
    simpa [hst, runLayout, initLayoutState] using h
  have hodd : (st.successfulCards % 2 == 0) = false := by
    simp [hparity]
  have hlen : ¬ ((lookupAssignment asg c.category).getD []).length = 0 := by
    simpa using hclimbs
  unfold layoutStep
  rw [if_neg hlen]
  refine ⟨_, rfl, ?_, ?_⟩
  · simp only [hodd, Bool.not_false, Bool.true_and, decide_eq_true_eq]
    rw [← List.length_pos_iff_ne_nil]
    simp only [List.length_append, List.length_cons]
    omega
  · by_cases hn : cfg.scoringNotes = ""
    · simp [hodd, hn]
      intro hle
      split
      · omega
      · omega
    · simp [hodd, hn]
      intro hle
      split
      · omega
      · omega

/-- C5 amended witness: the counterexample run, seen through the amended
statement — the second climber is followed by a (skipped) third climber, so
the gap is inserted. -/
theorem c5_amended_gap_iff_not_last_input_witness :
    ∃ card : Card,
      (layoutStep ⟨"E", 2, 4, "boulder", ""⟩ [("F10", ["101", "102", "103"])] 3
            (runLayout ⟨"E", 2, 4, "boulder", ""⟩ [("F10", ["101", "102", "103"])] 3
              [⟨"A", "A", "A A", "1", "F10", "1"⟩])
            ⟨"B", "B", "B B", "2", "F10", "1"⟩).cards =
        (runLayout ⟨"E", 2, 4, "boulder", ""⟩ [("F10", ["101", "102", "103"])] 3
            [⟨"A", "A", "A A", "1", "F10", "1"⟩]).cards ++ [card] ∧
      (card.gapAfter = true ↔ ([⟨"C", "C", "C C", "3", "M99", "1"⟩] : List Climber) ≠ []) ∧
      (card.rowsUsed ≤ 34 → card.rowsUsed + card.padding = 34) :=
  c5_amended_gap_iff_not_last_input ⟨"E", 2, 4, "boulder", ""⟩
    [("F10", ["101", "102", "103"])] [⟨"A", "A", "A A", "1", "F10", "1"⟩]
    ⟨"B", "B", "B B", "2", "F10", "1"⟩ [⟨"C", "C", "C C", "3", "M99", "1"⟩]
    (by decide) (by decide)

/-- C3 amended: fatal conditions checked before the output sheet is touched
(missing Summary, missing configuration scalar, invalid event kind, missing
Climbs) abort with one of their messages and an empty write trace; the
late-checked fatal conditions (missing Registration, zero valid climbers)
abort with their message, but only after the Queue Cards sheet has been
deleted (when present), recreated, and modified. -/
theorem c3_amended_write_discipline (env : Env) :
    (fatalEarly env →
      (generateScorecards env).1 = [] ∧
        ((generateScorecards env).2 = msgSummaryMissing ∨
          (generateScorecards env).2 = msgConfigMissing ∨
          (generateScorecards env).2 = msgEventTypeInvalid ∨
          (generateScorecards env).2 = msgClimbsMissing)) ∧
    (fatalLate env →
      (generateScorecards env).1 = queueSetupEvents env.existingSheets ∧
        ((generateScorecards env).2 = msgRegistrationMissing ∨
          (generateScorecards env).2 = msgNoClimbers)) := by
  obtain ⟨s, cl, reg, ex⟩ := env
  constructor
  · intro h
    rcases h with h | ⟨cfg, hs, hcfg⟩ | ⟨cfg, hs, hcp, het⟩ | ⟨cfg, hs, hcp, het, hcl⟩
    · simp only [Env.summary] at h
      subst h
      simp [generateScorecards]
    · simp only [Env.summary] at hs
      subst hs
      have hdisj : cfg.eventName = "" ∨ cfg.numClimbs = 0 ∨ cfg.numAttempts = 0 ∨
          cfg.eventType = "" := by
        by_contra hc
        push_neg at hc
        exact hcfg ⟨hc.1, hc.2.1, hc.2.2.1, hc.2.2.2⟩
      simp [generateScorecards, hdisj]
    · simp only [Env.summary] at hs
      subst hs
      obtain ⟨h1, h2, h3, h4⟩ := hcp
      have hne : ¬ (cfg.eventName = "" ∨ cfg.numClimbs = 0 ∨ cfg.numAttempts = 0 ∨
          cfg.eventType = "") := by tauto
      have hbad : jsTrim (jsToLower cfg.eventType) ≠ "boulder" ∧
          jsTrim (jsToLower cfg.eventType) ≠ "rope" := by
        unfold eventTypeOK at het
        tauto
      simp [generateScorecards, hne, hbad]
    · simp only [Env.summary] at hs
      simp only [Env.climbs] at hcl
      subst hs
      subst hcl
      obtain ⟨h1, h2, h3, h4⟩ := hcp
      have hne : ¬ (cfg.eventName = "" ∨ cfg.numClimbs = 0 ∨ cfg.numAttempts = 0 ∨
          cfg.eventType = "") := by tauto
      have hok : ¬ (jsTrim (jsToLower cfg.eventType) ≠ "boulder" ∧
          jsTrim (jsToLower cfg.eventType) ≠ "rope") := by
        unfold eventTypeOK at het
        tauto
      simp [generateScorecards, hne, hok]
  · intro h
    obtain ⟨cfg, hs, hcp, het, ⟨cd, hcd⟩, hreg⟩ := h
    simp only [Env.summary] at hs
    simp only [Env.climbs] at hcd
    subst hs
    subst hcd
    obtain ⟨h1, h2, h3, h4⟩ := hcp
    have hne : ¬ (cfg.eventName = "" ∨ cfg.numClimbs = 0 ∨ cfg.numAttempts = 0 ∨
        cfg.eventType = "") := by tauto
    have hok : ¬ (jsTrim (jsToLower cfg.eventType) ≠ "boulder" ∧
        jsTrim (jsToLower cfg.eventType) ≠ "rope") := by
      unfold eventTypeOK at het
      tauto
    rcases hreg with hr | ⟨rd, hr, hz⟩
    · simp only [Env.registration] at hr
      subst hr
      simp [generateScorecards, hne, hok]
    · simp only [Env.registration] at hr
      subst hr
      simp [generateScorecards, hne, hok, hz]

/-- C3 amended witness: the early part applied to a run with no Summary
sheet, and the late part applied to the counterexample environment with the
Registration sheet missing. -/
theorem c3_amended_write_discipline_witness :
    ((generateScorecards ⟨none, none, none, []⟩).1 = [] ∧
      ((generateScorecards ⟨none, none, none, []⟩).2 = msgSummaryMissing ∨
        (generateScorecards ⟨none, none, none, []⟩).2 = msgConfigMissing ∨
        (generateScorecards ⟨none, none, none, []⟩).2 = msgEventTypeInvalid ∨
        (generateScorecards ⟨none, none, none, []⟩).2 = msgClimbsMissing)) ∧
    ((generateScorecards
          ⟨some ⟨"Comp", 2, 4, "boulder", ""⟩,
            some [["Category", "Climbs"], ["F10", "101, 102"]], none,
            ["Summary", "Climbs", "Queue Cards"]⟩).1 =
        queueSetupEvents ["Summary", "Climbs", "Queue Cards"] ∧
      ((generateScorecards
            ⟨some ⟨"Comp", 2, 4, "boulder", ""⟩,
              some [["Category", "Climbs"], ["F10", "101, 102"]], none,
              ["Summary", "Climbs", "Queue Cards"]⟩).2 = msgRegistrationMissing ∨
        (generateScorecards
            ⟨some ⟨"Comp", 2, 4, "boulder", ""⟩,
              some [["Category", "Climbs"], ["F10", "101, 102"]], none,
              ["Summary", "Climbs", "Queue Cards"]⟩).2 = msgNoClimbers)) :=
  ⟨(c3_amended_write_discipline ⟨none, none, none, []⟩).1 (Or.inl rfl),
    (c3_amended_write_discipline
        ⟨some ⟨"Comp", 2, 4, "boulder", ""⟩,
          some [["Category", "Climbs"], ["F10", "101, 102"]], none,
          ["Summary", "Climbs", "Queue Cards"]⟩).2
      ⟨⟨"Comp", 2, 4, "boulder", ""⟩, rfl, ⟨by decide, by decide, by decide, by decide⟩,
        Or.inl (by decide), ⟨[["Category", "Climbs"], ["F10", "101, 102"]], rfl⟩,
        Or.inl rfl⟩⟩

/-- C8 counterexample: a data row whose first-name cell is the non-empty
string `" "` (whitespace) and whose ticket cells are all empty.  The row
passes the blank-row check (`!firstname` is false), no ticket matches, but
`climberName` trims to `""`, so the guard `!foundRegistration && climberName`
fails and the parser records *no* SkipReason at all — refuting "adds exactly
one SkipReason" for rows with a non-empty (but blank-trimming) name. -/
theorem c8_counterexample :
    parseClimberData
        [["firstname", "lastname", "bib", "F10 boulder ticket"],
          [" ", "", "", ""]] = ([], []) := by
  decide

/-- Blank ticket cells never match: the scan falls through to `notFound`. -/
theorem scanTickets_notFound (row : List String) (ts : List (Nat × String))
    (h : ∀ t ∈ ts, jsTrim (cellAt row (some t.1)) = "") :
    scanTickets row ts = .notFound := by
  induction ts with
  | nil => rfl
  | cons t rest ih =>
    have ht := h t (List.mem_cons_self t rest)
    have hc : ¬ (cellAt row (some t.1) ≠ "" ∧ jsTrim (cellAt row (some t.1)) ≠ "") :=
      fun hcon => hcon.2 ht
    simp only [scanTickets, if_neg hc]
    exact ih (fun t' ht' => h t' (List.mem_cons_of_mem t ht'))

/-- C8 amended: for every registration data row whose *trimmed combined
name* (`firstname ++ " " ++ lastname`, trimmed) is non-empty and whose
ticket cells are all empty or whitespace, the parser produces exactly one
SkipReason with null category and verbatim reason
"No registration/ticket information found", and no ClimberRecord (a row
whose name cells are whitespace-only instead produces nothing at all, per
the counterexample). -/
theorem c8_amended_skip_unregistered (fi li bi : Option Nat)
    (tickets : List (Nat × String)) (row : List String)
    (hname : jsTrim (cellAt row fi ++ " " ++ cellAt row li) ≠ "")
    (htix : ∀ t ∈ tickets, jsTrim (cellAt row (some t.1)) = "") :
    processClimberRow fi li bi tickets row =
      .skipped ⟨jsTrim (cellAt row fi ++ " " ++ cellAt row li), none,
        "No registration/ticket information found"⟩ := by
  have hsc := scanTickets_notFound row tickets htix
  have hnb : ¬ (cellAt row fi = "" ∧ cellAt row li = "") := by
    rintro ⟨h1, h2⟩
    apply hname
    rw [h1, h2]
    rfl
  simp only [processClimberRow, hsc, if_neg hnb, if_pos hname]

/-- C8 amended witness: a named row whose single ticket column points past
the end of the row (an empty cell). -/
theorem c8_amended_skip_unregistered_witness :
    jsTrim (cellAt ["Ann", "Bee"] (some 0) ++ " " ++ cellAt ["Ann", "Bee"] (some 1)) ≠ "" ∧
    processClimberRow (some 0) (some 1) (some 2) [(5, "F10")] ["Ann", "Bee"] =
      .skipped ⟨jsTrim (cellAt ["Ann", "Bee"] (some 0) ++ " " ++
          cellAt ["Ann", "Bee"] (some 1)), none,
        "No registration/ticket information found"⟩ :=
  ⟨by decide,
    c8_amended_skip_unregistered (some 0) (some 1) (some 2) [(5, "F10")]
      ["Ann", "Bee"] (by decide) (by decide)⟩

/-- Digits taken by `takeDigits` are digits. -/
theorem takeDigits_digits (l : List Char) :
    ∀ c ∈ takeDigits l, jsIsDigit c = true := by
  induction l with
  | nil => simp [takeDigits]
  | cons c cs ih =>
    unfold takeDigits
    by_cases hd : jsIsDigit c
    · rw [if_pos hd]
      intro x hx
      rcases List.mem_cons.mp hx with rfl | hx
      · exact hd
      · exact ih x hx
    · rw [if_neg hd]
      simp

/-- A successful `/\d+/` match is a non-empty all-digit character run. -/
theorem firstDigitRun_spec (l r : List Char) (h : firstDigitRun l = some r) :
    r ≠ [] ∧ ∀ c ∈ r, jsIsDigit c = true := by
  induction l with
  | nil => simp [firstDigitRun] at h
  | cons c cs ih =>
    unfold firstDigitRun at h
    by_cases hd : jsIsDigit c
    · rw [if_pos hd] at h
      have hr : r = c :: takeDigits cs := (Option.some.injEq _ _).mp h.symm
      subst hr
      refine ⟨List.cons_ne_nil c _, ?_⟩
      intro x hx
      rcases List.mem_cons.mp hx with rfl | hx
      · exact hd
      · exact takeDigits_digits cs x hx
    · rw [if_neg hd] at h
      exact ih h

/-- A decimal digit is not whitespace. -/
theorem digit_not_whitespace (c : Char) (h : jsIsDigit c = true) :
    jsIsWhitespace c = false := by
  unfold jsIsDigit at h
  unfold jsIsWhitespace
  simp only [Bool.and_eq_true, decide_eq_true_eq] at h
  simp only [Bool.or_eq_false_iff, decide_eq_false_iff_not]
  omega

theorem dropWhile_id_of_not_ws (l : List Char)
    (h : ∀ c ∈ l, jsIsWhitespace c = false) :
    l.dropWhile jsIsWhitespace = l := by
  cases l with
  | nil => rfl
  | cons c cs =>
    rw [List.dropWhile_cons, if_neg]
    rw [h c (List.mem_cons_self c cs)]
    simp

/-- Trimming an all-digit string is the identity. -/
theorem jsTrim_all_digits (l : List Char) (h : ∀ c ∈ l, jsIsDigit c = true) :
    jsTrim ⟨l⟩ = ⟨l⟩ := by
  unfold jsTrim
  have hws : ∀ c ∈ l, jsIsWhitespace c = false :=
    fun c hc => digit_not_whitespace c (h c hc)
  have h1 : l.dropWhile jsIsWhitespace = l := dropWhile_id_of_not_ws l hws
  show String.mk ((((⟨l⟩ : String).data.dropWhile jsIsWhitespace).reverse.dropWhile
      jsIsWhitespace).reverse) = ⟨l⟩
  have hdata : (⟨l⟩ : String).data = l := rfl
  rw [hdata, h1]
  have h2 : l.reverse.dropWhile jsIsWhitespace = l.reverse :=
    dropWhile_id_of_not_ws l.reverse (fun c hc => hws c (List.mem_reverse.mp hc))
  rw [h2, List.reverse_reverse]

theorem mk_ne_empty (l : List Char) (h : l ≠ []) : (⟨l⟩ : String) ≠ "" :=
  fun he => h (by simpa using congrArg String.data he)

/-- The session token derived from a non-blank ticket cell (first digit run,
or the raw cell text as fallback) is never empty or whitespace-only. -/
theorem session_token_ok (tv : String) (h : jsTrim tv ≠ "") :
    ¬ ((jsMatchDigits tv).getD tv = "" ∨ jsTrim ((jsMatchDigits tv).getD tv) = "") := by
  cases hm : jsMatchDigits tv with
  | none =>
    simp only [Option.getD_none]
    rintro (he | he)
    · rw [he] at h
      exact h rfl
    · exact h he
  | some r =>
    simp only [Option.getD_some]
    obtain ⟨rl, hrl, hr⟩ := Option.map_eq_some'.mp hm
    obtain ⟨hne, hdig⟩ := firstDigitRun_spec tv.data rl hrl
    subst hr
    rintro (he | he)
    · exact mk_ne_empty rl hne he
    · rw [jsTrim_all_digits rl hdig] at he
      exact mk_ne_empty rl hne he

/-- The "No session information found" branch of the ticket scan is
unreachable. -/
theorem scanTickets_ne_invalid (row : List String) (ts : List (Nat × String))
    (cat : String) : scanTickets row ts ≠ .invalid cat := by
  induction ts with
  | nil => simp [scanTickets]
  | cons t rest ih =>
    by_cases hc : (cellAt row (some t.1) ≠ "" ∧ jsTrim (cellAt row (some t.1)) ≠ "")
    · simp only [scanTickets, if_pos hc]
      rw [if_neg (session_token_ok (cellAt row (some t.1)) hc.2)]
      simp
    · simp only [scanTickets, if_neg hc]
      exact ih

/-- Any SkipReason produced by row processing carries the
no-registration reason, never the session one. -/
theorem processClimberRow_reason (fi li bi : Option Nat)
    (ts : List (Nat × String)) (row : List String) (s : SkipReason)
    (h : processClimberRow fi li bi ts row = .skipped s) :
    s.reason = "No registration/ticket information found" := by
  simp only [processClimberRow] at h
  by_cases hb : (cellAt row fi = "" ∧ cellAt row li = "")
  · rw [if_pos hb] at h
    exact absurd h (by simp)
  · rw [if_neg hb] at h
    cases hsc : scanTickets row ts with
    | notFound =>
      rw [hsc] at h
      by_cases hn : jsTrim (cellAt row fi ++ " " ++ cellAt row li) ≠ ""
      · rw [if_pos hn] at h
        have hs := (RowResult.skipped.injEq _ _).mp h
        rw [← hs]
      · rw [if_neg hn] at h
        exact absurd h (by simp)
    | invalid c => exact absurd hsc (scanTickets_ne_invalid row ts c)
    | found c sess =>
      rw [hsc] at h
      exact absurd h (by simp)

theorem collectRows_no_session_reason (fi li bi : Option Nat)
    (ts : List (Nat × String)) (rows : List (List String)) :
    ((collectRows fi li bi ts rows).2).all
      (fun s => !(s.reason == "No session information found")) = true := by
  induction rows with
  | nil => rfl
  | cons r rs ih =>
    unfold collectRows
    cases hr : processClimberRow fi li bi ts (normalizeRow r) with
    | blank => simpa using ih
    | valid c => simpa using ih
    | skipped s =>
      simp only [List.all_cons, Bool.and_eq_true]
      refine ⟨?_, by simpa using ih⟩
      rw [processClimberRow_reason fi li bi ts (normalizeRow r) s hr]
      decide

/-- C10: the Registration Parser's "No session information found" rejection
branch is unreachable — a non-blank ticket cell always yields a non-blank
session token (a digit run is non-empty and digits are not whitespace; the
raw-text fallback only applies to a cell already known to trim non-empty),
so for every input table no SkipReason carries that reason. -/
theorem c10_session_skip_unreachable (data : List (List String)) :
    ((parseClimberData data).2).all
      (fun s => !(s.reason == "No session information found")) = true := by
  cases data with
  | nil => rfl
  | cons header rest =>
    by_cases hr : rest.isEmpty
    · simp only [parseClimberData, if_pos hr]
      rfl
    · simp only [parseClimberData, if_neg hr]
      exact collectRows_no_session_reason _ _ _ _ _

/-! ### Sorting and grouping lemmas for the roster builder -/

theorem insertLE_perm {α : Type} (le : α → α → Bool) (a : α) (l : List α) :
    (insertLE le a l).Perm (a :: l) := by
  induction l with
  | nil => simp [insertLE]
  | cons b bs ih =>
    unfold insertLE
    by_cases h : le a b
    · rw [if_pos h]
    · rw [if_neg h]
      exact (ih.cons b).trans (List.Perm.swap a b bs)

theorem sortLE_perm {α : Type} (le : α → α → Bool) (l : List α) :
    (sortLE le l).Perm l := by
  induction l with
  | nil => simp [sortLE]
  | cons a as ih =>
    exact (insertLE_perm le a (sortLE le as)).trans (ih.cons a)

theorem mem_sortLE {α : Type} (le : α → α → Bool) (l : List α) (x : α) :
    x ∈ sortLE le l ↔ x ∈ l :=
  (sortLE_perm le l).mem_iff

/-- Inserting into a sorted list keeps it sorted, provided the comparison is
total and transitive on the elements involved. -/
theorem insertLE_sorted {α : Type} (le : α → α → Bool) (P : α → Prop)
    (htrans : ∀ a b c, P a → P b → P c → le a b = true → le b c = true → le a c = true)
    (htot : ∀ a b, P a → P b → le a b = true ∨ le b a = true)
    (a : α) (l : List α) (ha : P a) (hl : ∀ x ∈ l, P x)
    (hs : l.Pairwise (fun x y => le x y = true)) :
    (insertLE le a l).Pairwise (fun x y => le x y = true) := by
  induction l with
  | nil => simp [insertLE]
  | cons b bs ih =>
    rcases List.pairwise_cons.mp hs with ⟨hb, hbs⟩
    unfold insertLE
    by_cases h : le a b
    · rw [if_pos h]
      refine List.pairwise_cons.mpr ⟨?_, hs⟩
      intro y hy
      rcases List.mem_cons.mp hy with rfl | hy
      · exact h
      · exact htrans a b y ha (hl b (List.mem_cons_self b bs))
          (hl y (List.mem_cons_of_mem b hy)) h (hb y hy)
    · rw [if_neg h]
      have hba : le b a = true := by
        rcases htot a b ha (hl b (List.mem_cons_self b bs)) with h' | h'
        · exact absurd h' h
        · exact h'
      refine List.pairwise_cons.mpr
        ⟨?_, ih (fun x hx => hl x (List.mem_cons_of_mem b hx)) hbs⟩
      intro y hy
      rcases List.mem_cons.mp ((insertLE_perm le a bs).mem_iff.mp hy) with rfl | hy'
      · exact hba
      · exact hb y hy'

theorem sortLE_sorted {α : Type} (le : α → α → Bool) (P : α → Prop)
    (htrans : ∀ a b c, P a → P b → P c → le a b = true → le b c = true → le a c = true)
    (htot : ∀ a b, P a → P b → le a b = true ∨ le b a = true)
    (l : List α) (hl : ∀ x ∈ l, P x) :
    (sortLE le l).Pairwise (fun x y => le x y = true) := by
  induction l with
  | nil => simp [sortLE]
  | cons a as ih =>
    refine insertLE_sorted le P htrans htot a (sortLE le as)
      (hl a (List.mem_cons_self a as)) ?_
      (ih (fun x hx => hl x (List.mem_cons_of_mem a hx)))
    intro x hx
    exact hl x (List.mem_cons_of_mem a ((mem_sortLE le as x).mp hx))

/-- `addToGroups` preserves the grouping invariant: distinct keys, non-empty
groups, every member keyed by its own session and satisfying `P`. -/
theorem addToGroups_wf (P : Climber → Prop) (gs : List (String × List Climber))
    (c : Climber) (hnd : (gs.map Prod.fst).Nodup)
    (hwf : ∀ p ∈ gs, p.2 ≠ [] ∧ ∀ x ∈ p.2, x.session = p.1 ∧ P x) (hc : P c) :
    ((addToGroups gs c).map Prod.fst).Nodup ∧
      (∀ p ∈ addToGroups gs c, p.2 ≠ [] ∧ ∀ x ∈ p.2, x.session = p.1 ∧ P x) := by
  unfold addToGroups
  by_cases h : gs.any (fun g => g.1 == c.session)
  · rw [if_pos h]
    have hkeys : (gs.map (fun g => if g.1 == c.session then (g.1, g.2 ++ [c]) else g)).map
        Prod.fst = gs.map Prod.fst := by
      rw [List.map_map]
      apply List.map_congr_left
      intro g _
      by_cases hgc : g.1 == c.session
      · rw [Function.comp_apply, if_pos hgc]
      · rw [Function.comp_apply, if_neg hgc]
    refine ⟨by rw [hkeys]; exact hnd, ?_⟩
    intro p hp
    obtain ⟨q, hq, hpq⟩ := List.mem_map.mp hp
    by_cases hqc : q.1 == c.session
    · rw [if_pos hqc] at hpq
      subst hpq
      refine ⟨by simp, ?_⟩
      intro x hx
      rcases List.mem_append.mp hx with hx | hx
      · exact (hwf q hq).2 x hx

      · rw [List.mem_singleton.mp hx]
        exact ⟨(eq_of_beq hqc).symm, hc⟩
    · rw [if_neg hqc] at hpq
      subst hpq
      exact hwf q hq
  · rw [if_neg h]
    have hnot : c.session ∉ gs.map Prod.fst := by
      intro hmem
      obtain ⟨g, hg, hgk⟩ := List.mem_map.mp hmem
      rw [List.any_eq_true] at h
      exact h ⟨g, hg, by simp [hgk]⟩
    refine ⟨?_, ?_⟩
    · rw [List.map_append]
      rw [List.nodup_append]
      refine ⟨hnd, by simp, ?_⟩
      intro k hk hk'
      simp at hk'
      subst hk'
      exact hnot hk
    · intro p hp
      rcases List.mem_append.mp hp with hp | hp
      · exact hwf p hp
      · rw [List.mem_singleton.mp hp]
        refine ⟨by simp, ?_⟩
        intro x hx
        rw [List.mem_singleton.mp hx]
        exact ⟨rfl, hc⟩

theorem groupFold_wf (P : Climber → Prop) (cs : List Climber)
    (gs : List (String × List Climber)) (hnd : (gs.map Prod.fst).Nodup)
    (hwf : ∀ p ∈ gs, p.2 ≠ [] ∧ ∀ x ∈ p.2, x.session = p.1 ∧ P x)
    (hcs : ∀ c ∈ cs, P c) :
    ((cs.foldl addToGroups gs).map Prod.fst).Nodup ∧
      (∀ p ∈ cs.foldl addToGroups gs, p.2 ≠ [] ∧ ∀ x ∈ p.2, x.session = p.1 ∧ P x) := by
  induction cs generalizing gs with
  | nil => exact ⟨hnd, hwf⟩
  | cons c cs ih =>
    simp only [List.foldl_cons]
    have step := addToGroups_wf P gs c hnd hwf (hcs c (List.mem_cons_self c cs))
    exact ih (addToGroups gs c) step.1 step.2
      (fun x hx => hcs x (List.mem_cons_of_mem c hx))

theorem addToGroups_preserve (gs : List (String × List Climber)) (c x : Climber)
    (h : ∃ p ∈ gs, p.1 = x.session ∧ x ∈ p.2) :
    ∃ p ∈ addToGroups gs c, p.1 = x.session ∧ x ∈ p.2 := by
  obtain ⟨p, hp, hk, hx⟩ := h
  unfold addToGroups
  by_cases hany : gs.any (fun g => g.1 == c.session)
  · rw [if_pos hany]
    by_cases hpc : p.1 == c.session
    · exact ⟨(p.1, p.2 ++ [c]),
        List.mem_map.mpr ⟨p, hp, by rw [if_pos hpc]⟩, hk,
        List.mem_append.mpr (Or.inl hx)⟩
    · exact ⟨p, List.mem_map.mpr ⟨p, hp, by rw [if_neg hpc]⟩, hk, hx⟩
  · rw [if_neg hany]
    exact ⟨p, List.mem_append.mpr (Or.inl hp), hk, hx⟩

theorem addToGroups_self (gs : List (String × List Climber)) (c : Climber) :
    ∃ p ∈ addToGroups gs c, p.1 = c.session ∧ c ∈ p.2 := by
  unfold addToGroups
  by_cases hany : gs.any (fun g => g.1 == c.session)
  · rw [if_pos hany]
    obtain ⟨q, hq, hqc⟩ := List.any_eq_true.mp hany
    exact ⟨(q.1, q.2 ++ [c]),
      List.mem_map.mpr ⟨q, hq, by rw [if_pos hqc]⟩, eq_of_beq hqc,
      List.mem_append.mpr (Or.inr (List.mem_singleton.mpr rfl))⟩
  · rw [if_neg hany]
    exact ⟨(c.session, [c]), List.mem_append.mpr (Or.inr (by simp)), rfl, by simp⟩

theorem groupFold_total (cs : List Climber) (gs : List (String × List Climber))
    (x : Climber) (hx : x ∈ cs ∨ ∃ p ∈ gs, p.1 = x.session ∧ x ∈ p.2) :
    ∃ p ∈ cs.foldl addToGroups gs, p.1 = x.session ∧ x ∈ p.2 := by
  induction cs generalizing gs with
  | nil =>
    rcases hx with hx | hx
    · exact absurd hx (List.not_mem_nil x)
    · exact hx
  | cons c cs ih =>
    simp only [List.foldl_cons]
    rcases hx with hx | hx
    · rcases List.mem_cons.mp hx with rfl | hx
      · exact ih (addToGroups gs x) (Or.inr (addToGroups_self gs x))
      · exact ih (addToGroups gs c) (Or.inl hx)
    · exact ih (addToGroups gs c) (Or.inr (addToGroups_preserve gs c x hx))

theorem sessionLE_some (a b : String) (x y : Int) (hx : jsParseInt a = some x)
    (hy : jsParseInt b = some y) : sessionLE a b = decide (x ≤ y) := by
  unfold sessionLE
  rw [hx, hy]

theorem jsParseIntOr0_some (a : String) (x : Int) (hx : jsParseInt a = some x) :
    jsParseIntOr0 a = x := by
  unfold jsParseIntOr0
  rw [hx]
  rfl

/-- C9: the Check-in Roster Builder's session grouping is total — roster
session keys are pairwise distinct, every valid climber appears in the
roster keyed by its own session token, rosters contain only climbers of
their session, and the rosters are emitted in ascending order of numeric
session value (the hypothesis makes "numeric session value" meaningful:
every session token parses as a number, as is the case for parser-produced
digit-run tokens). -/
theorem c9_roster_partition (cs : List Climber)
    (h : ∀ c ∈ cs, (jsParseInt c.session).isSome = true) :
    ((createCheckInLists cs).map Roster.session).Nodup ∧
    (∀ c ∈ cs, ∃ r ∈ createCheckInLists cs, r.session = c.session ∧ c ∈ r.rows) ∧
    (∀ r ∈ createCheckInLists cs, ∀ c ∈ r.rows, c.session = r.session) ∧
    ((createCheckInLists cs).map (fun r => jsParseIntOr0 r.session)).Pairwise
      (fun x y => x ≤ y) := by
  have hinv := groupFold_wf (fun c => (jsParseInt c.session).isSome = true) cs []
    (by simp) (by simp) h
  have hgkeys : ∀ p ∈ groupBySession cs, (jsParseInt p.1).isSome = true := by
    intro p hp
    obtain ⟨hne, hmem⟩ := hinv.2 p hp
    obtain ⟨x, hx⟩ := List.exists_mem_of_ne_nil p.2 hne
    obtain ⟨hsess, hP⟩ := hmem x hx
    rw [← hsess]
    exact hP
  have hsortmem : ∀ p, p ∈ sortLE (fun a b => sessionLE a.1 b.1) (groupBySession cs) ↔
      p ∈ groupBySession cs :=
    fun p => mem_sortLE _ _ p
  refine ⟨?_, ?_, ?_, ?_⟩
  · -- distinct roster keys
    have hmapeq : (createCheckInLists cs).map Roster.session =
        (sortLE (fun a b => sessionLE a.1 b.1) (groupBySession cs)).map Prod.fst := by
      unfold createCheckInLists
      rw [List.map_map]
      rfl
    rw [hmapeq]
    exact (((sortLE_perm (fun a b => sessionLE a.1 b.1) (groupBySession cs)).map
      Prod.fst).nodup_iff).mpr hinv.1
  · -- every climber lands in the roster keyed by its session
    intro c hc
    obtain ⟨p, hp, hk, hcx⟩ := groupFold_total cs [] c (Or.inl hc)
    refine ⟨⟨p.1, sortLE rosterRowLE p.2⟩,
      List.mem_map.mpr ⟨p, (hsortmem p).mpr hp, rfl⟩, hk, ?_⟩
    exact (mem_sortLE rosterRowLE p.2 c).mpr hcx
  · -- rosters contain only climbers of their session
    intro r hr c hcr
    obtain ⟨p, hp, hrp⟩ := List.mem_map.mp hr
    subst hrp
    have hcp : c ∈ p.2 := (mem_sortLE rosterRowLE p.2 c).mp hcr
    exact ((hinv.2 p ((hsortmem p).mp hp)).2 c hcp).1
  · -- ascending numeric session order
    have hall : ∀ p ∈ groupBySession cs, (jsParseInt p.1).isSome = true := hgkeys
    have hsorted := sortLE_sorted (fun a b => sessionLE a.1 b.1)
      (fun p => (jsParseInt p.1).isSome = true)
      (by
        intro a b c ha hb hc hab hbc
        obtain ⟨x, hx⟩ := Option.isSome_iff_exists.mp ha
        obtain ⟨y, hy⟩ := Option.isSome_iff_exists.mp hb
        obtain ⟨z, hz⟩ := Option.isSome_iff_exists.mp hc
        simp only [] at hab hbc ⊢
        rw [sessionLE_some a.1 b.1 x y hx hy] at hab
        rw [sessionLE_some b.1 c.1 y z hy hz] at hbc
        rw [sessionLE_some a.1 c.1 x z hx hz]
        simp only [decide_eq_true_eq] at hab hbc ⊢
        omega)
      (by
        intro a b ha hb
        obtain ⟨x, hx⟩ := Option.isSome_iff_exists.mp ha
        obtain ⟨y, hy⟩ := Option.isSome_iff_exists.mp hb
        simp only []
        rw [sessionLE_some a.1 b.1 x y hx hy, sessionLE_some b.1 a.1 y x hy hx]
        simp only [decide_eq_true_eq]
        omega)
      (groupBySession cs) hall
    have hmapeq : (createCheckInLists cs).map (fun r => jsParseIntOr0 r.session) =
        (sortLE (fun a b => sessionLE a.1 b.1) (groupBySession cs)).map
          (fun p => jsParseIntOr0 p.1) := by
      unfold createCheckInLists
      rw [List.map_map]
      rfl
    rw [hmapeq, List.pairwise_map]
    refine hsorted.imp_of_mem ?_
    intro a b ha hb hab
    have ha' := hgkeys a ((hsortmem a).mp ha)
    have hb' := hgkeys b ((hsortmem b).mp hb)
    obtain ⟨x, hx⟩ := Option.isSome_iff_exists.mp ha'
    obtain ⟨y, hy⟩ := Option.isSome_iff_exists.mp hb'
    simp only [] at hab
    rw [sessionLE_some a.1 b.1 x y hx hy] at hab
    simp only [decide_eq_true_eq] at hab
    rw [jsParseIntOr0_some a.1 x hx, jsParseIntOr0_some b.1 y hy]
    exact hab

/-- C9 witness: three climbers over sessions "2" and "1". -/
theorem c9_roster_partition_witness :
    ((createCheckInLists
        [⟨"A", "A", "A A", "1", "F10", "2"⟩, ⟨"B", "B", "B B", "2", "M10", "1"⟩,
          ⟨"C", "C", "C C", "3", "F10", "1"⟩]).map Roster.session).Nodup ∧
    (∀ c ∈ ([⟨"A", "A", "A A", "1", "F10", "2"⟩, ⟨"B", "B", "B B", "2", "M10", "1"⟩,
          ⟨"C", "C", "C C", "3", "F10", "1"⟩] : List Climber),
      ∃ r ∈ createCheckInLists
          [⟨"A", "A", "A A", "1", "F10", "2"⟩, ⟨"B", "B", "B B", "2", "M10", "1"⟩,
            ⟨"C", "C", "C C", "3", "F10", "1"⟩],
        r.session = c.session ∧ c ∈ r.rows) ∧
    (∀ r ∈ createCheckInLists
        [⟨"A", "A", "A A", "1", "F10", "2"⟩, ⟨"B", "B", "B B", "2", "M10", "1"⟩,
          ⟨"C", "C", "C C", "3", "F10", "1"⟩],
      ∀ c ∈ r.rows, c.session = r.session) ∧
    ((createCheckInLists
        [⟨"A", "A", "A A", "1", "F10", "2"⟩, ⟨"B", "B", "B B", "2", "M10", "1"⟩,
          ⟨"C", "C", "C C", "3", "F10", "1"⟩]).map
        (fun r => jsParseIntOr0 r.session)).Pairwise (fun x y => x ≤ y) :=
  c9_roster_partition
    [⟨"A", "A", "A A", "1", "F10", "2"⟩, ⟨"B", "B", "B B", "2", "M10", "1"⟩,
      ⟨"C", "C", "C C", "3", "F10", "1"⟩] (by decide)

end Scorecard

